import Mathlib

/-!
Verification of the Ledger Aggregation & Settlement Engine of duo-finance.

The engine lives in `src/app/page.tsx` (duplicated in
`src/app/api/transactions/route.ts`): the `dateRange`, `filteredTransactions`,
`financials` and `budgetStats` memos.  This file shallow-embeds those
functions and proves properties about them.

Modelling conventions:
* A JavaScript number that can be `NaN` is modelled as `JsNum := Option Rat`:
  `some q` is a finite value (floats are idealised as exact rationals),
  `none` is `NaN` (or any non-finite value).  Arithmetic on `JsNum`
  propagates `none` exactly as JS arithmetic propagates `NaN`, and every
  numeric comparison with a `none` operand is false, as in JS.
* `Transaction.amount : JsNum` is the value of `Number(t.amount)`: `some q`
  when the stored amount string parses to the finite value `q`, `none` when
  it does not parse (`Number` returns `NaN`).
* A JavaScript `Date` is modelled at calendar-day granularity as a civil
  triple `JSDate` (year, 0-based month, day); the engine only ever sets the
  time-of-day components to the very start (00:00:00.000) or very end
  (23:59:59.999) of a day, and transaction dates are parsed at local
  midnight, so every timestamp comparison made by the engine coincides with
  the comparison of day numbers (`JSDate.toDays`).
* `setDate`/`setMonth`/day arithmetic on `Date` objects is timestamp
  arithmetic; it is modelled by `dateAddDays` (exact day stepping through
  the Gregorian calendar) and by explicit month normalisation, which is the
  civil description of the same operations.
-/

namespace DuoFinance

/-- A JS number that may be `NaN`: `none` models `NaN`, `some q` a finite value. -/
abbrev JsNum := Option Rat

/-- Rational addition, written through `mkRat` so that the kernel can
evaluate it on concrete inputs (the library `Rat.add` is `@[irreducible]`);
`qAdd_eq` below proves it is exactly `+`. -/
def qAdd (a b : Rat) : Rat := mkRat (a.num * b.den + b.num * a.den) (a.den * b.den)

/-- Rational subtraction through `mkRat`; equals `-` by `qSub_eq`. -/
def qSub (a b : Rat) : Rat := mkRat (a.num * b.den - b.num * a.den) (a.den * b.den)

/-- Rational multiplication through `mkRat`; equals `*` by `qMul_eq`. -/
def qMul (a b : Rat) : Rat := mkRat (a.num * b.num) (a.den * b.den)

/-- Rational division through `mkRat`; equals `/` by `qDiv_eq`
(in particular `qDiv a 0 = 0`). -/
def qDiv (a b : Rat) : Rat :=
  if 0 ≤ b.num then mkRat (a.num * b.den) (a.den * b.num.natAbs)
  else mkRat (-(a.num * b.den)) (a.den * b.num.natAbs)

/-- JS `+` : `NaN` propagates. -/
def jsAdd : JsNum → JsNum → JsNum
  | some a, some b => some (qAdd a b)
  | _, _ => none

/-- JS `-` : `NaN` propagates. -/
def jsSub : JsNum → JsNum → JsNum
  | some a, some b => some (qSub a b)
  | _, _ => none

/-- JS `*` : `NaN` propagates. -/
def jsMul : JsNum → JsNum → JsNum
  | some a, some b => some (qMul a b)
  | _, _ => none

/-- JS `/` : `NaN` propagates; division by zero yields a non-finite value
(`±Infinity` or `NaN`), modelled as `none`.  Every division performed by the
engine is by a non-zero constant or guarded by a positivity test. -/
def jsDiv : JsNum → JsNum → JsNum
  | some a, some b => if b = 0 then none else some (qDiv a b)
  | _, _ => none

/-- JS `Math.abs`; `Math.abs(NaN) = NaN`. -/
def jsAbs : JsNum → JsNum
  | some a => some |a|
  | none => none

/-- JS `v > c` for a constant `c`: false when `v` is `NaN`. -/
def jsGtC (v : JsNum) (c : Rat) : Bool :=
  match v with
  | some q => decide (c < q)
  | none => false

/-- JS `v < c` for a constant `c`: false when `v` is `NaN`. -/
def jsLtC (v : JsNum) (c : Rat) : Bool :=
  match v with
  | some q => decide (q < c)
  | none => false

/-- JS `v || 0` on a number-or-undefined slot: `undefined`, `NaN` and `0` are
falsy and give `0`; any other number is returned unchanged.  An absent map
entry is modelled as `none`, like `NaN`, since `x || 0` sends both to `0`. -/
def jsOrZero : JsNum → JsNum
  | none => some 0
  | some q => some q

/-! ## The Gregorian calendar, as JavaScript `Date` sees it -/

/-- Gregorian leap-year rule (what `new Date(y, 1, 29)` rolling over encodes). -/
def isLeap (y : Int) : Prop :=
  y % 4 = 0 ∧ (y % 100 ≠ 0 ∨ y % 400 = 0)

instance (y : Int) : Decidable (isLeap y) := by
  unfold isLeap; infer_instance

/-- Number of days of 0-based month `m` of year `y` (month 1 is February). -/
def daysInMonth (y m : Int) : Int :=
  if m = 1 then (if isLeap y then 29 else 28)
  else if m = 3 ∨ m = 5 ∨ m = 8 ∨ m = 10 then 30 else 31

/-- Day number of the civil date (year `y`, 0-based month `m`, day `d`),
counted from day 0 = 0000-03-01 of the proleptic Gregorian calendar; affine
in `d`.  `1970-01-01` is day 719468.  This is the calendar underlying the
JS `Date` timestamp (timestamp = (toDays − 719468) · 86400000 at midnight
UTC; the engine compares timestamps of a single local timezone, so the
constant offset is irrelevant). -/
def daysFromCivil (y m d : Int) : Int :=
  let yy : Int := if m ≤ 1 then y - 1 else y
  let mp : Int := (m + 10) % 12
  (153 * mp + 2) / 5 + (d - 1) + 365 * yy + yy / 4 - yy / 100 + yy / 400

/-- A JS `Date` at calendar-day granularity: a normalised civil date. -/
structure JSDate where
  year : Int
  month : Int
  day : Int
deriving DecidableEq

/-- The date actually denotes a calendar day: 0-based month in range and the
day within the month.  Every `Date` object JS hands out is of this shape. -/
def JSDate.Valid (D : JSDate) : Prop :=
  0 ≤ D.month ∧ D.month ≤ 11 ∧ 1 ≤ D.day ∧ D.day ≤ daysInMonth D.year D.month

instance (D : JSDate) : Decidable D.Valid := by
  unfold JSDate.Valid; infer_instance

/-- Day number of a `JSDate` (its timestamp, in days). -/
def JSDate.toDays (D : JSDate) : Int :=
  daysFromCivil D.year D.month D.day

/-- The next calendar day. -/
def nextDay (D : JSDate) : JSDate :=
  if D.day < daysInMonth D.year D.month then ⟨D.year, D.month, D.day + 1⟩
  else if D.month < 11 then ⟨D.year, D.month + 1, 1⟩
  else ⟨D.year + 1, 0, 1⟩

/-- The previous calendar day. -/
def prevDay (D : JSDate) : JSDate :=
  if 1 < D.day then ⟨D.year, D.month, D.day - 1⟩
  else if 0 < D.month then ⟨D.year, D.month - 1, daysInMonth D.year (D.month - 1)⟩
  else ⟨D.year - 1, 11, 31⟩

/-- `n`-fold iteration (structural, so that the kernel can evaluate it). -/
def iterN : Nat → (α → α) → α → α
  | 0, _, a => a
  | n + 1, f, a => iterN n f (f a)

/-- Shift a date by `k` calendar days: the civil meaning of JS timestamp
arithmetic / `setDate` with an out-of-range day argument. -/
def dateAddDays (D : JSDate) (k : Int) : JSDate :=
  if 0 ≤ k then iterN k.toNat nextDay D else iterN (-k).toNat prevDay D

/-- JS `getDay()`: 0 = Sunday … 6 = Saturday (1970-01-01, day 719468, was a
Thursday, weekday 4). -/
def getDay (D : JSDate) : Int :=
  (D.toDays + 3) % 7

/-- JS `d.setMonth(M, 0)`: normalise the (possibly out-of-range) month `M`
of year `y`, then take day 0, i.e. the last day of the month preceding the
normalised month. -/
def jsSetMonthDay0 (y M : Int) : JSDate :=
  let y2 : Int := y + M / 12
  let m2 : Int := M % 12
  if m2 = 0 then ⟨y2 - 1, 11, daysInMonth (y2 - 1) 11⟩
  else ⟨y2, m2 - 1, daysInMonth y2 (m2 - 1)⟩

/-- JS `new Date(y, m, d)` at day granularity: years 0–99 are interpreted as
1900+y, the month is normalised into the year, and the day offsets from the
first of that month (day 1). -/
def mkJSDate (y m d : Int) : JSDate :=
  let y1 : Int := if 0 ≤ y ∧ y ≤ 99 then y + 1900 else y
  let y2 : Int := y1 + m / 12
  let m2 : Int := m % 12
  dateAddDays ⟨y2, m2, 1⟩ (d - 1)

/-! ## Data model (`page.tsx` types) -/

inductive TransactionType
  | income
  | expense
  | settlement
deriving DecidableEq

inductive Owner
  | me
  | her
deriving DecidableEq

inductive SplitType
  | personal
  | shared
deriving DecidableEq

inductive FilterState
  | weekly
  | monthly
  | yearly
deriving DecidableEq

/-- A transaction record.  `amount` holds the value of `Number(t.amount)`
(`none` when the stored amount string does not parse, i.e. `NaN`); `date`
holds the raw stored date string.  The source fields `from`/`to` are Lean
keywords and are embedded as `fromOwner`/`toOwner`. -/
structure Transaction where
  id : String
  amount : JsNum
  category : String
  date : String
  note : String
  type : TransactionType
  owner : Owner
  split : Option SplitType
  fromOwner : Option Owner
  toOwner : Option Owner
deriving DecidableEq

inductive WhoOwes
  | me
  | her
  | none
deriving DecidableEq

structure SettlementInfo where
  amount : JsNum
  whoOwes : WhoOwes
  raw : JsNum
deriving DecidableEq

structure Financials where
  income : JsNum
  expense : JsNum
  balance : JsNum
  settlement : SettlementInfo
deriving DecidableEq

structure BudgetStat where
  category : String
  monthlyLimit : Rat
  effectiveLimit : Rat
  spent : JsNum
  pct : JsNum
deriving DecidableEq

/-- The resolved period `{start, end}`; the source field `end` is a Lean
keyword and is embedded as `stop`. -/
structure DateRange where
  start : JSDate
  stop : JSDate
deriving DecidableEq

/-! ## PeriodResolver: the `dateRange` memo -/

/-- The `dateRange` memo of `page.tsx`, at calendar-day granularity
(`start` carries 00:00:00.000 and `stop` 23:59:59.999 in the source; the
time parts are constant and never observed except through comparisons that
are modelled at day granularity). -/
def dateRange (now : JSDate) (filter : FilterState) : DateRange :=
  match filter with
  | .weekly =>
    let day := getDay now
    let start := dateAddDays now (-day + (if day = 0 then -6 else 1))
    { start := start, stop := dateAddDays start 6 }
  | .monthly =>
    { start := ⟨now.year, now.month, 1⟩,
      stop := jsSetMonthDay0 now.year (now.month + 1) }
  | .yearly =>
    { start := ⟨now.year, 0, 1⟩, stop := ⟨now.year, 11, 31⟩ }

/-! ## TransactionFilter: date parsing and the `filteredTransactions` memo -/

/-- Split a character list at every `'-'`, like JS `String.split('-')`
(`""` gives `[""]`). -/
def splitDash : List Char → List (List Char)
  | [] => [[]]
  | c :: cs =>
    if c = '-' then [] :: splitDash cs
    else
      match splitDash cs with
      | [] => [[c]]
      | p :: ps => (c :: p) :: ps

/-- Value of a non-empty all-digit character list, `none` otherwise. -/
def digitsVal (cs : List Char) : Option Nat :=
  if cs = [] then none
  else
    cs.foldl
      (fun acc c =>
        match acc with
        | none => none
        | some n => if c.isDigit then some (10 * n + (c.toNat - 48)) else none)
      (some 0)

/-- JS `Number(s)` on a date component, composed with the `ToInteger`
truncation the `Date` constructor applies: the empty string is `0`, an
optionally `'-'`-signed digit string is its value, anything else is `NaN`
(`none`).  (The app stores dates as `YYYY-MM-DD`, so fractional or
exponent-form components do not occur.) -/
def jsToNumber (cs : List Char) : Option Int :=
  match cs with
  | [] => some 0
  | '-' :: rest => (digitsVal rest).map (fun n => -(n : Int))
  | _ => (digitsVal cs).map (fun n => (n : Int))

/-- `t.date.split('-').map(Number)` destructured as `[y, m, d]`: the first
three components, `none` if any of them is `NaN` (a missing component is
`undefined`, and `Number(undefined)` is `NaN`), in which case
`new Date(y, m - 1, d)` is an Invalid Date. -/
def parseDateComponents (s : String) : Option (Int × Int × Int) :=
  match splitDash s.data with
  | a :: b :: c :: _ =>
    match jsToNumber a, jsToNumber b, jsToNumber c with
    | some y, some m, some d => some (y, m, d)
    | _, _, _ => Option.none
  | _ => Option.none

/-- The `filteredTransactions` memo: keep the transactions whose parsed
local date lies in `[range.start, range.end]`.  An Invalid Date has a `NaN`
timestamp and fails both comparisons.  The transaction date is parsed at
local midnight and the range bounds sit at the very start/end of their
days, so the source's timestamp comparisons coincide with the day-number
comparisons used here.  The source then re-sorts the result by date
descending for display; the sort only permutes the list and every
aggregation below folds with permutation-insensitive totals, so it is
omitted from the embedding. -/
def filteredTransactions (transactions : List Transaction) (r : DateRange) :
    List Transaction :=
  transactions.filter fun t =>
    match parseDateComponents t.date with
    | Option.none => false
    | some (y, m, d) =>
      let tDate := mkJSDate y (m - 1) d
      decide (r.start.toDays ≤ tDate.toDays ∧ tDate.toDays ≤ r.stop.toDays)

/-! ## FinancialAggregator and SettlementCalculator: the `financials` memo -/

/-- One step of the income/expense `forEach`: settlements are skipped, the
amount of an income is added to the income total, the amount of anything
else (i.e. an expense) to the expense total. -/
def ieStep (acc : JsNum × JsNum) (t : Transaction) : JsNum × JsNum :=
  if t.type = .settlement then acc
  else if t.type = .income then (jsAdd acc.1 t.amount, acc.2)
  else (acc.1, jsAdd acc.2 t.amount)

/-- Accumulator of the all-time settlement `forEach`. -/
structure SettleAcc where
  meSharedPaid : JsNum
  herSharedPaid : JsNum
  meSettledToHer : JsNum
  herSettledToMe : JsNum
deriving DecidableEq

/-- One step of the all-time settlement `forEach` over the full history. -/
def settleStep (acc : SettleAcc) (t : Transaction) : SettleAcc :=
  if t.type = .settlement then
    let acc1 :=
      if t.fromOwner = some .me ∧ t.toOwner = some .her then
        { acc with meSettledToHer := jsAdd acc.meSettledToHer t.amount }
      else acc
    if t.fromOwner = some .her ∧ t.toOwner = some .me then
      { acc1 with herSettledToMe := jsAdd acc1.herSettledToMe t.amount }
    else acc1
  else if t.type = .expense ∧ t.split = some .shared then
    let acc1 :=
      if t.owner = .me then
        { acc with meSharedPaid := jsAdd acc.meSharedPaid t.amount }
      else acc
    if t.owner = .her then
      { acc1 with herSharedPaid := jsAdd acc1.herSharedPaid t.amount }
    else acc1
  else acc

/-- The `financials` memo: income/expense/balance over the period-filtered
transactions, and the inter-owner settlement over the full history. -/
def financials (transactions : List Transaction) (now : JSDate)
    (filter : FilterState) : Financials :=
  let filtered := filteredTransactions transactions (dateRange now filter)
  let ie := filtered.foldl ieStep (some 0, some 0)
  let acc := transactions.foldl settleStep ⟨some 0, some 0, some 0, some 0⟩
  let baseDebt := jsSub (jsDiv acc.herSharedPaid (some 2)) (jsDiv acc.meSharedPaid (some 2))
  let netDebt := jsAdd (jsSub baseDebt acc.meSettledToHer) acc.herSettledToMe
  { income := ie.1
    expense := ie.2
    balance := jsSub ie.1 ie.2
    settlement :=
      { amount := jsAbs netDebt
        whoOwes :=
          if jsGtC netDebt (mkRat 1 100) then .me
          else if jsLtC netDebt (-mkRat 1 100) then .her
          else .none
        raw := netDebt } }

/-! ## BudgetTracker: the `budgetStats` memo -/

/-- The per-category period usage map: expenses of the filtered set summed
by category.  An absent key is `undefined`, modelled as `none`, and the
source reads it back through `|| 0` (`jsOrZero`). -/
def usageStep (usage : String → JsNum) (t : Transaction) : String → JsNum :=
  fun c =>
    if c = t.category then jsAdd (jsOrZero (usage t.category)) t.amount
    else usage c

def usageMap (filtered : List Transaction) : String → JsNum :=
  (filtered.filter fun t => t.type = .expense).foldl usageStep (fun _ => Option.none)

/-- The period scale factor: `0.23` for weekly, `12` for yearly, `1`
otherwise (the source literals as exact rationals). -/
def scaleOf (filter : FilterState) : Rat :=
  if filter = .weekly then mkRat 23 100 else if filter = .yearly then 12 else 1

/-- Body of the `Object.keys(budgets).map(...)` callback: one `BudgetStat`
per budgeted category.  `budgets[cat] || 0` is the stored limit itself for
every finite limit (`0 || 0` is `0`). -/
def mkBudgetStat (scale : Rat) (usage : String → JsNum) (cat : String)
    (lim : Rat) : BudgetStat :=
  let monthlyLimit := lim
  let effectiveLimit := qMul monthlyLimit scale
  let spent := jsOrZero (usage cat)
  let pct :=
    if 0 < effectiveLimit then jsMul (jsDiv spent (some effectiveLimit)) (some 100)
    else some 0
  { category := cat
    monthlyLimit := monthlyLimit
    effectiveLimit := effectiveLimit
    spent := spent
    pct := pct }

/-- Sort comparator of `budgetStats`: `(a, b) => b.pct - a.pct`, i.e. `a`
may stay before `b` iff `b.pct - a.pct ≤ 0`; a `NaN` comparator value is
treated as `0` (keep the order). -/
def pctDescLe (a b : BudgetStat) : Bool :=
  match a.pct, b.pct with
  | some x, some y => decide (y ≤ x)
  | _, _ => true

/-- The `budgetStats` memo.  The budgets record (`Record<string, number>`)
is embedded as its key/value list in `Object.keys` order; `Object.keys`
enumerates each key once.  JS `Array.sort` is a stable sort, embedded as
`List.mergeSort`. -/
def budgetStats (budgets : List (String × Rat)) (transactions : List Transaction)
    (now : JSDate) (filter : FilterState) : List BudgetStat :=
  let filtered := filteredTransactions transactions (dateRange now filter)
  let usage := usageMap filtered
  let scale := scaleOf filter
  (budgets.map fun p => mkBudgetStat scale usage p.1 p.2).mergeSort pctDescLe

/-! ## Helper lemmas about the folds -/

/-- The per-transaction contribution of the settlement fold, field by field. -/
def settleContrib (t : Transaction) : SettleAcc :=
  if t.type = .settlement then
    { meSharedPaid := some 0
      herSharedPaid := some 0
      meSettledToHer :=
        if t.fromOwner = some .me ∧ t.toOwner = some .her then t.amount else some 0
      herSettledToMe :=
        if t.fromOwner = some .her ∧ t.toOwner = some .me then t.amount else some 0 }
  else if t.type = .expense ∧ t.split = some .shared then
    { meSharedPaid := if t.owner = .me then t.amount else some 0
      herSharedPaid := if t.owner = .her then t.amount else some 0
      meSettledToHer := some 0
      herSettledToMe := some 0 }
  else ⟨some 0, some 0, some 0, some 0⟩

/-- Componentwise `jsAdd` of accumulators. -/
def accAdd (a c : SettleAcc) : SettleAcc :=
  ⟨jsAdd a.meSharedPaid c.meSharedPaid, jsAdd a.herSharedPaid c.herSharedPaid,
    jsAdd a.meSettledToHer c.meSettledToHer, jsAdd a.herSettledToMe c.herSettledToMe⟩

/-! ## Concrete fixtures used by witnesses and counterexamples -/

/-- A reference date (2024-01-15) used where the claim does not constrain it. -/
def now0 : JSDate := ⟨2024, 0, 15⟩

/-- `expense, shared, owner = her, amount = 100`. -/
def eHer : Transaction :=
  { id := "1", amount := some 100, category := "Food", date := "2024-01-10", note := "",
    type := .expense, owner := .her, split := some .shared,
    fromOwner := Option.none, toOwner := Option.none }

/-- `settlement{from: me, to: her, amount: 50}`. -/
def sMeToHer : Transaction :=
  { id := "2", amount := some 50, category := "Settlement", date := "2024-01-11",
    note := "", type := .settlement, owner := .me, split := some .personal,
    fromOwner := some .me, toOwner := some .her }

/-- `settlement{from: her, to: me, amount: 50}`. -/
def sHerToMe : Transaction :=
  { id := "3", amount := some 50, category := "Settlement", date := "2024-01-11",
    note := "", type := .settlement, owner := .her, split := some .personal,
    fromOwner := some .her, toOwner := some .me }

/-- A degenerate settlement with `owner = me` but `from = her, to = me`
(`owner ≠ from`), amount 10. -/
def badOwnerSettle : Transaction :=
  { id := "4", amount := some 10, category := "Settlement", date := "2024-01-11",
    note := "", type := .settlement, owner := .me, split := some .personal,
    fromOwner := some .her, toOwner := some .me }

/-- A degenerate settlement with `from = to = me`. -/
def selfSettle : Transaction :=
  { id := "5", amount := some 10, category := "Settlement", date := "2024-01-11",
    note := "", type := .settlement, owner := .me, split := some .personal,
    fromOwner := some .me, toOwner := some .me }

/-- An income transaction whose amount string does not parse
(`Number(amount)` is `NaN`), dated inside the 2024-01 monthly period. -/
def nanAmountTx : Transaction :=
  { id := "6", amount := Option.none, category := "Food", date := "2024-01-10",
    note := "", type := .income, owner := .me, split := some .personal,
    fromOwner := Option.none, toOwner := Option.none }

/-- A transaction with an unparseable date string. -/
def badDateTx : Transaction :=
  { id := "7", amount := some 5, category := "Food", date := "soon", note := "",
    type := .expense, owner := .me, split := some .personal,
    fromOwner := Option.none, toOwner := Option.none }

/-- `expense, Food, amount = 115`, dated 2024-01-03 (inside the week of
2024-01-01). -/
def foodTx115 : Transaction :=
  { id := "8", amount := some 115, category := "Food", date := "2024-01-03",
    note := "", type := .expense, owner := .me, split := some .personal,
    fromOwner := Option.none, toOwner := Option.none }

/-! ## Theorems -/

theorem den_cast_ne (a : Rat) : ((a.den : Rat)) ≠ 0 := by
  simp [a.den_nz]

theorem qAdd_eq (a b : Rat) : qAdd a b = a + b := by
  unfold qAdd
  rw [Rat.mkRat_eq_div]
  push_cast
  conv_rhs =>
    rw [← Rat.num_div_den a, ← Rat.num_div_den b,
      div_add_div _ _ (den_cast_ne a) (den_cast_ne b)]
  ring_nf

theorem qSub_eq (a b : Rat) : qSub a b = a - b := by
  unfold qSub
  rw [Rat.mkRat_eq_div]
  push_cast
  conv_rhs =>
    rw [← Rat.num_div_den a, ← Rat.num_div_den b,
      div_sub_div _ _ (den_cast_ne a) (den_cast_ne b)]
  ring_nf

theorem qMul_eq (a b : Rat) : qMul a b = a * b := by
  unfold qMul
  rw [Rat.mkRat_eq_div]
  push_cast
  conv_rhs =>
    rw [← Rat.num_div_den a, ← Rat.num_div_den b, div_mul_div_comm]

theorem rat_div_num_den (a b : Rat) :
    a / b = ((a.num * b.den : Int) : Rat) / ((a.den * b.num : Int) : Rat) := by
  conv_lhs => rw [← Rat.num_div_den a, ← Rat.num_div_den b]
  rw [div_div_eq_mul_div, div_mul_eq_mul_div, div_div]
  push_cast
  ring_nf

theorem qDiv_eq (a b : Rat) : qDiv a b = a / b := by
  rw [rat_div_num_den]
  unfold qDiv
  split_ifs with hb
  · rw [Rat.mkRat_eq_div]
    push_cast
    rw [Int.cast_natAbs, abs_of_nonneg hb]
  · rw [Rat.mkRat_eq_div]
    push_cast
    rw [Int.cast_natAbs, abs_of_neg (show b.num < 0 by omega)]
    push_cast
    rw [mul_neg, neg_div_neg_eq]

theorem jsAdd_zero_right (x : JsNum) : jsAdd x (some 0) = x := by
  cases x <;> simp [jsAdd, qAdd_eq]

theorem jsAdd_right_comm (x a b : JsNum) :
    jsAdd (jsAdd x a) b = jsAdd (jsAdd x b) a := by
  cases x <;> cases a <;> cases b <;> simp [jsAdd, qAdd_eq, add_right_comm]

/-! ## Calendar lemmas -/

theorem daysInMonth_pos (y m : Int) : 1 ≤ daysInMonth y m := by
  unfold daysInMonth; split_ifs <;> norm_num

theorem daysInMonth_le_31 (y m : Int) : daysInMonth y m ≤ 31 := by
  unfold daysInMonth; split_ifs <;> norm_num

theorem daysFromCivil_day_shift (y m d k : Int) :
    daysFromCivil y m (d + k) = daysFromCivil y m d + k := by
  simp only [daysFromCivil]
  split_ifs <;> omega

theorem daysFromCivil_month_succ (y m : Int) (h0 : 0 ≤ m) (h1 : m ≤ 10) :
    daysFromCivil y (m + 1) 1 = daysFromCivil y m (daysInMonth y m) + 1 := by
  interval_cases m <;>
    (simp only [daysFromCivil, daysInMonth, isLeap]; norm_num) <;>
    omega

theorem daysFromCivil_year_succ (y : Int) :
    daysFromCivil (y + 1) 0 1 = daysFromCivil y 11 31 + 1 := by
  simp only [daysFromCivil]
  norm_num
  omega

theorem valid_mk {y m d : Int} (h1 : 0 ≤ m) (h2 : m ≤ 11) (h3 : 1 ≤ d)
    (h4 : d ≤ daysInMonth y m) : (JSDate.mk y m d).Valid :=
  ⟨h1, h2, h3, h4⟩

theorem nextDay_valid {D : JSDate} (h : D.Valid) : (nextDay D).Valid := by
  obtain ⟨h1, h2, h3, h4⟩ := h
  unfold nextDay
  split_ifs with hd hm
  · exact valid_mk h1 h2 (by omega) (by omega)
  · exact valid_mk (by omega) (by omega) (le_refl 1) (daysInMonth_pos _ _)
  · exact valid_mk (by norm_num) (by norm_num) (le_refl 1) (daysInMonth_pos _ _)

theorem toDays_nextDay {D : JSDate} (h : D.Valid) :
    (nextDay D).toDays = D.toDays + 1 := by
  obtain ⟨h1, h2, h3, h4⟩ := h
  unfold nextDay
  split_ifs with hd hm
  · show daysFromCivil D.year D.month (D.day + 1) = daysFromCivil D.year D.month D.day + 1
    exact daysFromCivil_day_shift D.year D.month D.day 1
  · have hdim : D.day = daysInMonth D.year D.month := by omega
    show daysFromCivil D.year (D.month + 1) 1 = daysFromCivil D.year D.month D.day + 1
    rw [hdim]
    exact daysFromCivil_month_succ D.year D.month h1 (by omega)
  · have hm11 : D.month = 11 := by omega
    have hdim : D.day = 31 := by
      have : daysInMonth D.year D.month = 31 := by
        rw [hm11]; unfold daysInMonth; norm_num
      omega
    show daysFromCivil (D.year + 1) 0 1 = daysFromCivil D.year D.month D.day + 1
    rw [hm11, hdim]
    exact daysFromCivil_year_succ D.year

theorem prevDay_valid {D : JSDate} (h : D.Valid) : (prevDay D).Valid := by
  obtain ⟨h1, h2, h3, h4⟩ := h
  unfold prevDay
  split_ifs with hd hm
  · exact valid_mk h1 h2 (by omega) (by omega)
  · exact valid_mk (by omega) (by omega) (daysInMonth_pos _ _) (le_refl _)
  · refine valid_mk (by norm_num) (by norm_num) (by norm_num) ?_
    unfold daysInMonth; norm_num

theorem toDays_prevDay {D : JSDate} (h : D.Valid) :
    (prevDay D).toDays = D.toDays - 1 := by
  obtain ⟨h1, h2, h3, h4⟩ := h
  unfold prevDay
  split_ifs with hd hm
  · show daysFromCivil D.year D.month (D.day - 1) = daysFromCivil D.year D.month D.day - 1
    have hds := daysFromCivil_day_shift D.year D.month (D.day - 1) 1
    have hdd : D.day - 1 + 1 = D.day := by omega
    rw [hdd] at hds
    omega
  · have hd1 : D.day = 1 := by omega
    show daysFromCivil D.year (D.month - 1) (daysInMonth D.year (D.month - 1)) =
      daysFromCivil D.year D.month D.day - 1
    rw [hd1]
    have hms := daysFromCivil_month_succ D.year (D.month - 1) (by omega) (by omega)
    have hmm : D.month - 1 + 1 = D.month := by omega
    rw [hmm] at hms
    omega
  · have hd1 : D.day = 1 := by omega
    have hm0 : D.month = 0 := by omega
    show daysFromCivil (D.year - 1) 11 31 = daysFromCivil D.year D.month D.day - 1
    have hys := daysFromCivil_year_succ (D.year - 1)
    have hyy : D.year - 1 + 1 = D.year := by omega
    rw [hyy] at hys
    rw [hm0, hd1]
    omega

theorem iterN_nextDay_valid (n : Nat) {D : JSDate} (h : D.Valid) :
    (iterN n nextDay D).Valid := by
  induction n generalizing D with
  | zero => exact h
  | succ n ih => exact ih (nextDay_valid h)

theorem toDays_iterN_nextDay (n : Nat) {D : JSDate} (h : D.Valid) :
    (iterN n nextDay D).toDays = D.toDays + n := by
  induction n generalizing D with
  | zero => simp [iterN]
  | succ n ih =>
    have := ih (nextDay_valid h)
    rw [iterN, this, toDays_nextDay h]
    push_cast
    ring

theorem iterN_prevDay_valid (n : Nat) {D : JSDate} (h : D.Valid) :
    (iterN n prevDay D).Valid := by
  induction n generalizing D with
  | zero => exact h
  | succ n ih => exact ih (prevDay_valid h)

theorem toDays_iterN_prevDay (n : Nat) {D : JSDate} (h : D.Valid) :
    (iterN n prevDay D).toDays = D.toDays - n := by
  induction n generalizing D with
  | zero => simp [iterN]
  | succ n ih =>
    have := ih (prevDay_valid h)
    rw [iterN, this, toDays_prevDay h]
    push_cast
    ring

theorem dateAddDays_valid {D : JSDate} (h : D.Valid) (k : Int) :
    (dateAddDays D k).Valid := by
  unfold dateAddDays
  split_ifs
  · exact iterN_nextDay_valid _ h
  · exact iterN_prevDay_valid _ h

theorem toDays_dateAddDays {D : JSDate} (h : D.Valid) (k : Int) :
    (dateAddDays D k).toDays = D.toDays + k := by
  unfold dateAddDays
  split_ifs with hk
  · rw [toDays_iterN_nextDay _ h]; omega
  · rw [toDays_iterN_prevDay _ h]; omega

theorem settleStep_eq_accAdd (acc : SettleAcc) (t : Transaction) :
    settleStep acc t = accAdd acc (settleContrib t) := by
  cases acc
  unfold settleStep settleContrib accAdd
  split_ifs <;> simp_all [jsAdd_zero_right]

theorem accAdd_right_comm (x a b : SettleAcc) :
    accAdd (accAdd x a) b = accAdd (accAdd x b) a := by
  cases x; cases a; cases b
  simp [accAdd, jsAdd_right_comm]

theorem foldl_settleStep_eq (l : List Transaction) (i : SettleAcc) :
    l.foldl settleStep i = l.foldl (fun acc t => accAdd acc (settleContrib t)) i := by
  induction l generalizing i with
  | nil => rfl
  | cons t l ih => simp [List.foldl_cons, settleStep_eq_accAdd, ih]

theorem foldl_settleStep_perm {l1 l2 : List Transaction} (p : l1.Perm l2)
    (i : SettleAcc) : l1.foldl settleStep i = l2.foldl settleStep i := by
  rw [foldl_settleStep_eq, foldl_settleStep_eq]
  exact @List.Perm.foldl_eq _ _ (fun acc t => accAdd acc (settleContrib t)) _ _
    ⟨fun x a b => accAdd_right_comm x (settleContrib a) (settleContrib b)⟩ p i

theorem settleStep_skip (acc : SettleAcc) (t : Transaction)
    (ht : t.type = .settlement) (hft : t.fromOwner = t.toOwner) :
    settleStep acc t = acc := by
  unfold settleStep
  rw [if_pos ht]
  split_ifs with h1 h2 h2 <;> simp_all

theorem ieStep_skip (acc : JsNum × JsNum) (t : Transaction)
    (ht : t.type = .settlement) : ieStep acc t = acc := by
  unfold ieStep
  rw [if_pos ht]

theorem foldl_skip_middle {α β : Type} (f : β → α → β) (t : α)
    (hid : ∀ b, f b t = b) (l1 l2 : List α) (i : β) :
    (l1 ++ t :: l2).foldl f i = (l1 ++ l2).foldl f i := by
  simp [List.foldl_append, List.foldl_cons, hid]

theorem filtered_ie_fold (l1 l2 : List Transaction) (t : Transaction)
    (r : DateRange) (ht : t.type = .settlement) :
    (filteredTransactions (l1 ++ t :: l2) r).foldl ieStep (some 0, some 0) =
      (filteredTransactions (l1 ++ l2) r).foldl ieStep (some 0, some 0) := by
  unfold filteredTransactions
  rw [List.filter_append, List.filter_append, List.filter_cons]
  split_ifs with hp
  · exact foldl_skip_middle ieStep t (fun b => ieStep_skip b t ht) _ _ _
  · rfl

/-! ## The claims -/

/-- C1 (counterexample): for the single transaction
`expense, shared, owner = her, amount = 100` and no settlements, the code
yields `raw = +50` and `whoOwes = 'me'` — not `raw = −50, whoOwes = 'her'`
as the claim states; and additionally adding `settlement{from: her, to: me,
amount: 50}` yields `raw = 100, whoOwes = 'me'` — not `raw ≈ 0,
whoOwes = 'none'`. -/
theorem c1_zero_sum_settlement_counterexample :
    (financials [eHer] now0 .monthly).settlement.raw = some 50 ∧
    (financials [eHer] now0 .monthly).settlement.whoOwes = WhoOwes.me ∧
    ¬((financials [eHer] now0 .monthly).settlement.raw = some (-50)) ∧
    ¬((financials [eHer] now0 .monthly).settlement.whoOwes = WhoOwes.her) ∧
    (financials [eHer, sHerToMe] now0 .monthly).settlement.raw = some 100 ∧
    ¬((financials [eHer, sHerToMe] now0 .monthly).settlement.whoOwes = WhoOwes.none) := by
  decide

/-- C1 (amended): with exactly one `expense, shared, owner = her,
amount = 100` and no settlements, the settlement calculation yields
`raw = +50, whoOwes = 'me', amount = 50` (positive `raw` means "me" owes
"her"); after additionally adding one settlement with `from = me, to = her,
amount = 50` it yields `raw = 0` exactly and `whoOwes = 'none'`. -/
theorem c1_zero_sum_settlement :
    (financials [eHer] now0 .monthly).settlement =
      ⟨some 50, WhoOwes.me, some 50⟩ ∧
    (financials [eHer, sMeToHer] now0 .monthly).settlement =
      ⟨some 0, WhoOwes.none, some 0⟩ := by
  decide

/-- C2 (divergence witness for the code bug): a transaction whose amount
string cannot be parsed (`Number` gives `NaN`) is NOT rejected or skipped:
it enters the income/expense fold and turns the running `income` and
`balance` totals into `NaN`, and no `InvalidAmount` condition exists in the
code.  The claim (spec §7) prescribes the opposite. -/
theorem c2_invalid_amount_propagates_nan :
    (financials [nanAmountTx] now0 .monthly).income = Option.none ∧
    (financials [nanAmountTx] now0 .monthly).balance = Option.none := by
  decide

/-- C3: the settlement calculation is order-independent: permuting the
transaction list leaves the whole settlement record — `raw` (the net
debt), `amount` and `whoOwes` — unchanged. -/
theorem c3_settlement_order_independent (l1 l2 : List Transaction)
    (now : JSDate) (f : FilterState) (h : l1.Perm l2) :
    (financials l1 now f).settlement = (financials l2 now f).settlement := by
  have hfold := foldl_settleStep_perm h (⟨some 0, some 0, some 0, some 0⟩ : SettleAcc)
  simp only [financials]
  rw [hfold]

theorem c3_settlement_order_independent_witness :
    (financials [eHer, sMeToHer] now0 .monthly).settlement =
      (financials [sMeToHer, eHer] now0 .monthly).settlement :=
  c3_settlement_order_independent [eHer, sMeToHer] [sMeToHer, eHer] now0 .monthly
    (by decide)

/-- C7: a settlement transaction contributes 0 to both the income total and
the expense total: inserting it anywhere into the transaction list changes
neither, for every period (whether or not its date falls inside). -/
theorem c7_settlement_excluded_from_totals (l1 l2 : List Transaction)
    (t : Transaction) (now : JSDate) (f : FilterState)
    (ht : t.type = .settlement) :
    (financials (l1 ++ t :: l2) now f).income =
      (financials (l1 ++ l2) now f).income ∧
    (financials (l1 ++ t :: l2) now f).expense =
      (financials (l1 ++ l2) now f).expense := by
  have hie := filtered_ie_fold l1 l2 t (dateRange now f) ht
  simp only [financials]
  rw [hie]
  exact ⟨rfl, rfl⟩

theorem c7_settlement_excluded_from_totals_witness :
    (financials ([eHer] ++ sMeToHer :: []) now0 .monthly).income =
      (financials ([eHer] ++ []) now0 .monthly).income ∧
    (financials ([eHer] ++ sMeToHer :: []) now0 .monthly).expense =
      (financials ([eHer] ++ []) now0 .monthly).expense :=
  c7_settlement_excluded_from_totals [eHer] [] sMeToHer now0 .monthly (by decide)

/-- C8 (counterexample): a settlement record with `owner ≠ from` (here
`owner = me, from = her, to = me`, amount 10) IS folded into the debt
calculation: it moves the net debt from 0 to 10, contradicting the claim
that such a record is not folded (and no `InvalidSettlement` condition is
reported anywhere in the code). -/
theorem c8_degenerate_settlement_counterexample :
    (financials [badOwnerSettle] now0 .monthly).settlement.raw = some 10 ∧
    (financials ([] : List Transaction) now0 .monthly).settlement.raw = some 0 := by
  decide

/-- C8 (amended): a settlement record with `from = to` is not folded into
the debt calculation — inserting it anywhere leaves the whole settlement
record unchanged.  (The `owner` field, however, is never consulted: a
settlement with `owner ≠ from` but distinct valid `from`/`to` is folded
normally, per the counterexample, and no `InvalidSettlement` condition is
reported.) -/
theorem c8_degenerate_settlement (l1 l2 : List Transaction) (t : Transaction)
    (now : JSDate) (f : FilterState) (ht : t.type = .settlement)
    (hft : t.fromOwner = t.toOwner) :
    (financials (l1 ++ t :: l2) now f).settlement =
      (financials (l1 ++ l2) now f).settlement := by
  have hfold : (l1 ++ t :: l2).foldl settleStep
        (⟨some 0, some 0, some 0, some 0⟩ : SettleAcc) =
      (l1 ++ l2).foldl settleStep (⟨some 0, some 0, some 0, some 0⟩ : SettleAcc) :=
    foldl_skip_middle settleStep t (fun b => settleStep_skip b t ht hft) l1 l2 _
  simp only [financials]
  rw [hfold]

theorem c8_degenerate_settlement_witness :
    (financials ([eHer] ++ selfSettle :: []) now0 .monthly).settlement =
      (financials ([eHer] ++ []) now0 .monthly).settlement :=
  c8_degenerate_settlement [eHer] [] selfSettle now0 .monthly (by decide) (by decide)

/-- C10: a transaction whose date string does not split into three numeric
year/month/day components (so that parsing it as a local calendar date
fails and `new Date` is an Invalid Date) is never included in the filtered
set, for any period. -/
theorem c10_unparseable_date_excluded (txs : List Transaction) (r : DateRange)
    (t : Transaction) (h : parseDateComponents t.date = Option.none) :
    t ∉ filteredTransactions txs r := by
  intro hmem
  rw [filteredTransactions, List.mem_filter, h] at hmem
  exact absurd hmem.2 (by simp)

theorem c10_unparseable_date_excluded_witness :
    badDateTx ∉ filteredTransactions [badDateTx] (dateRange now0 .monthly) :=
  c10_unparseable_date_excluded [badDateTx] (dateRange now0 .monthly) badDateTx
    (by decide)

/-- C4: with a configured monthly limit of 1000 for a category and the
weekly granularity, the budget row for that category has
`effectiveLimit = 230` exactly (`1000 × 0.23`), and when the period usage
of the category is 115, `pct = 50` exactly. -/
theorem c4_budget_scaling (budgets : List (String × Rat)) (txs : List Transaction)
    (now : JSDate) (cat : String) (h1 : (cat, (1000 : Rat)) ∈ budgets)
    (h2 : jsOrZero (usageMap (filteredTransactions txs (dateRange now .weekly)) cat) =
      some 115) :
    (⟨cat, 1000, 230, some 115, some 50⟩ : BudgetStat) ∈
      budgetStats budgets txs now .weekly := by
  have hrow : mkBudgetStat (scaleOf .weekly)
      (usageMap (filteredTransactions txs (dateRange now .weekly))) cat 1000 =
      ⟨cat, 1000, 230, some 115, some 50⟩ := by
    simp only [mkBudgetStat, h2, BudgetStat.mk.injEq]
    exact ⟨trivial, trivial, by decide, trivial, by decide⟩
  simp only [budgetStats]
  rw [(List.mergeSort_perm _ pctDescLe).mem_iff, ← hrow]
  exact List.mem_map_of_mem _ h1

theorem c4_budget_scaling_witness :
    (⟨"Food", 1000, 230, some 115, some 50⟩ : BudgetStat) ∈
      budgetStats [("Food", 1000)] [foodTx115] ⟨2024, 0, 3⟩ .weekly :=
  c4_budget_scaling [("Food", 1000)] [foodTx115] ⟨2024, 0, 3⟩ "Food"
    (by decide) (by decide)

/-- C9: `budgetStats` returns exactly one row per category key of the
budgets map (the categories of the result are a permutation of the map's
keys, so absent categories get no row), and a category with a configured
monthly limit of 0 yields the row with `monthlyLimit = 0`,
`effectiveLimit = 0`, `spent` equal to the category's period expense usage,
and `pct = 0`. -/
theorem c9_budget_rows (budgets : List (String × Rat)) (txs : List Transaction)
    (now : JSDate) (f : FilterState) :
    ((budgetStats budgets txs now f).map BudgetStat.category).Perm
      (budgets.map Prod.fst) ∧
    ∀ cat : String, (cat, (0 : Rat)) ∈ budgets →
      (⟨cat, 0, 0,
          jsOrZero (usageMap (filteredTransactions txs (dateRange now f)) cat),
          some 0⟩ : BudgetStat) ∈ budgetStats budgets txs now f := by
  constructor
  · simp only [budgetStats]
    have hperm :=
      (List.mergeSort_perm
        (budgets.map fun p => mkBudgetStat (scaleOf f)
          (usageMap (filteredTransactions txs (dateRange now f))) p.1 p.2)
        pctDescLe).map BudgetStat.category
    refine hperm.trans ?_
    rw [List.map_map]
    exact List.Perm.refl _
  · intro cat hc
    have hrow : mkBudgetStat (scaleOf f)
        (usageMap (filteredTransactions txs (dateRange now f))) cat 0 =
        ⟨cat, 0, 0,
          jsOrZero (usageMap (filteredTransactions txs (dateRange now f)) cat),
          some 0⟩ := by
      simp only [mkBudgetStat, BudgetStat.mk.injEq]
      refine ⟨trivial, trivial, ?_, trivial, ?_⟩
      · rw [qMul_eq, zero_mul]
      · rw [qMul_eq, zero_mul, if_neg (lt_irrefl 0)]
    simp only [budgetStats]
    rw [(List.mergeSort_perm _ pctDescLe).mem_iff, ← hrow]
    exact List.mem_map_of_mem _ hc

theorem c9_budget_rows_witness :
    (⟨"Food", 0, 0,
        jsOrZero (usageMap (filteredTransactions [foodTx115]
          (dateRange now0 .monthly)) "Food"),
        some 0⟩ : BudgetStat) ∈
      budgetStats [("Food", 0)] [foodTx115] now0 .monthly :=
  (c9_budget_rows [("Food", 0)] [foodTx115] now0 .monthly).2 "Food" (by decide)

/-- C5: for every valid reference date `D`, the monthly period starts on
the first calendar day of the month of `D` and ends on the true last
calendar day of that month (`end.day + 1` is no longer a valid day of the
month), with `end.day = 29` for February of a leap year and `28` for
February of a non-leap year. -/
theorem c5_monthly_period_coverage (D : JSDate) (h : D.Valid) :
    (dateRange D .monthly).start = ⟨D.year, D.month, 1⟩ ∧
    (dateRange D .monthly).stop.year = D.year ∧
    (dateRange D .monthly).stop.month = D.month ∧
    (dateRange D .monthly).stop.day = daysInMonth D.year D.month ∧
    (dateRange D .monthly).stop.Valid ∧
    ¬(JSDate.mk D.year D.month ((dateRange D .monthly).stop.day + 1)).Valid ∧
    (D.month = 1 →
      (isLeap D.year → (dateRange D .monthly).stop.day = 29) ∧
      (¬isLeap D.year → (dateRange D .monthly).stop.day = 28)) := by
  obtain ⟨h1, h2, h3, h4⟩ := h
  have hstop : (dateRange D .monthly).stop =
      ⟨D.year, D.month, daysInMonth D.year D.month⟩ := by
    show jsSetMonthDay0 D.year (D.month + 1) = _
    simp only [jsSetMonthDay0]
    by_cases hm : D.month = 11
    · rw [hm]
      norm_num
    · have ha : (D.month + 1) / 12 = 0 := by omega
      have hb : (D.month + 1) % 12 = D.month + 1 := by omega
      rw [ha, hb, if_neg (by omega)]
      norm_num
  refine ⟨rfl, by rw [hstop], by rw [hstop], by rw [hstop], ?_, ?_, ?_⟩
  · rw [hstop]
    exact valid_mk h1 h2 (daysInMonth_pos _ _) (le_refl _)
  · rw [hstop]
    show ¬(JSDate.mk D.year D.month (daysInMonth D.year D.month + 1)).Valid
    intro hv
    have hle : daysInMonth D.year D.month + 1 ≤ daysInMonth D.year D.month :=
      hv.2.2.2
    omega
  · intro hm1
    have hdim : daysInMonth D.year 1 = if isLeap D.year then 29 else 28 := by
      unfold daysInMonth
      norm_num
    constructor
    · intro hl
      rw [hstop]
      show daysInMonth D.year D.month = 29
      rw [hm1, hdim, if_pos hl]
    · intro hl
      rw [hstop]
      show daysInMonth D.year D.month = 28
      rw [hm1, hdim, if_neg hl]

theorem c5_monthly_period_coverage_witness :
    (dateRange ⟨2024, 1, 15⟩ .monthly).start = ⟨2024, 1, 1⟩ ∧
    (dateRange ⟨2024, 1, 15⟩ .monthly).stop.day = 29 ∧
    (dateRange ⟨2023, 1, 15⟩ .monthly).stop.day = 28 := by
  have h24 := c5_monthly_period_coverage ⟨2024, 1, 15⟩ (by decide)
  have h23 := c5_monthly_period_coverage ⟨2023, 1, 15⟩ (by decide)
  refine ⟨h24.1, ?_, ?_⟩
  · rw [h24.2.2.2.1]
    decide
  · rw [h23.2.2.2.1]
    decide

/-- C6: the weekly period starts on the Monday on or before the reference
date (weekday of `start` is 1, and `D` lies 0–6 days after `start`,
so a Sunday reference belongs to the week begun the preceding Monday) and
ends exactly six days later, rolling over month and year boundaries
(day arithmetic is exact on the calendar); concretely,
`resolve(2024-01-01)` and `resolve(2024-01-07)` both yield the period
`2024-01-01 .. 2024-01-07`. -/
theorem c6_weekly_period :
    (∀ D : JSDate, D.Valid →
      getDay (dateRange D .weekly).start = 1 ∧
      0 ≤ D.toDays - (dateRange D .weekly).start.toDays ∧
      D.toDays - (dateRange D .weekly).start.toDays ≤ 6 ∧
      (dateRange D .weekly).stop.toDays = (dateRange D .weekly).start.toDays + 6) ∧
    dateRange ⟨2024, 0, 1⟩ .weekly = ⟨⟨2024, 0, 1⟩, ⟨2024, 0, 7⟩⟩ ∧
    dateRange ⟨2024, 0, 7⟩ .weekly = ⟨⟨2024, 0, 1⟩, ⟨2024, 0, 7⟩⟩ := by
  refine ⟨?_, by decide, by decide⟩
  intro D h
  have hsd : (dateRange D .weekly).start.toDays =
      D.toDays + (-(getDay D) + (if getDay D = 0 then -6 else 1)) :=
    toDays_dateAddDays h _
  have hsv : (dateRange D .weekly).start.Valid := dateAddDays_valid h _
  have hed : (dateRange D .weekly).stop.toDays =
      (dateRange D .weekly).start.toDays + 6 :=
    toDays_dateAddDays hsv 6
  refine ⟨?_, ?_, ?_, hed⟩
  · show ((dateRange D .weekly).start.toDays + 3) % 7 = 1
    rw [hsd]
    unfold getDay
    omega
  · rw [hsd]
    unfold getDay
    omega
  · rw [hsd]
    unfold getDay
    omega

theorem c6_weekly_period_witness :
    getDay (dateRange ⟨2025, 9, 11⟩ .weekly).start = 1 ∧
    0 ≤ (JSDate.mk 2025 9 11).toDays - (dateRange ⟨2025, 9, 11⟩ .weekly).start.toDays ∧
    (JSDate.mk 2025 9 11).toDays - (dateRange ⟨2025, 9, 11⟩ .weekly).start.toDays ≤ 6 ∧
    (dateRange ⟨2025, 9, 11⟩ .weekly).stop.toDays =
      (dateRange ⟨2025, 9, 11⟩ .weekly).start.toDays + 6 :=
  c6_weekly_period.1 ⟨2025, 9, 11⟩ (by decide)

end DuoFinance
